import Mathlib

/-!
Verification of the DrivingPedals2 repository: a shallow embedding of the
range tracker of reader.py and of the shaping pipeline of driver.py, over
exact rationals. A separate value domain PyF adds the IEEE special values
(NaN and the two infinities) where the claims are about them. Machine time
stamps are modelled as integers and the wrap-safe tick difference of the
runtime as integer subtraction.
-/

set_option autoImplicit false
set_option linter.unusedVariables false

/-- reader.py line 75: lo if val is below lo else hi if val is above hi else val. -/
def clamp (val lo hi : ℚ) : ℚ :=
  if val < lo then lo else if val > hi then hi else val

/-- reader.py line 20: debounce window in milliseconds. -/
def DEBOUNCE_MS : ℤ := 1000

/-- utime.ticks_diff of the runtime, wrap-safe signed difference; modelled on
unbounded integer time stamps as plain subtraction. -/
def ticks_diff (a b : ℤ) : ℤ := a - b

/-- Python round to the nearest integer, ties to even. -/
def roundHalfEven (q : ℚ) : ℤ :=
  let n := ⌊q⌋
  let f := q - n
  if f < 1/2 then n
  else if f > 1/2 then n + 1
  else if Even n then n else n + 1

/-- Python round(x, 2): round to two decimal places, ties to even. -/
def round2 (q : ℚ) : ℚ := (roundHalfEven (q * 100) : ℚ) / 100

/-- Per-axis tracker state of reader.py: the entries of min_vals, max_vals
(lines 85-99) and of the timer arrays min_stable_ms, max_stable_ms
(lines 102-103), an unset timer being none. -/
structure RangeState where
  minV : ℚ
  maxV : ℚ
  minStable : Option ℤ
  maxStable : Option ℤ
  deriving DecidableEq

/-- reader.py lines 95-99: the first observed value initializes min and max
to that value; both timers start unset (lines 102-103). -/
def initRange (initial : ℚ) : RangeState :=
  ⟨initial, initial, none, none⟩

/-- reader.py lines 121-129: debounced MIN update for one axis. -/
def debounceMin (st : RangeState) (current : ℚ) (now : ℤ) : RangeState :=
  if current < st.minV then
    match st.minStable with
    | none => { st with minStable := some now }
    | some t =>
      if ticks_diff now t ≥ DEBOUNCE_MS then
        { st with minV := current, minStable := none }
      else st
  else { st with minStable := none }

/-- reader.py lines 131-139: debounced MAX update for one axis. -/
def debounceMax (st : RangeState) (current : ℚ) (now : ℤ) : RangeState :=
  if current > st.maxV then
    match st.maxStable with
    | none => { st with maxStable := some now }
    | some t =>
      if ticks_diff now t ≥ DEBOUNCE_MS then
        { st with maxV := current, maxStable := none }
      else st
  else { st with maxStable := none }

/-- One per-axis iteration of the reader main loop, lines 113-149. A sample
of none models safe_read returning None after its retries: line 115 then
substitutes the stored max value for current. A sample of some c carries the
(possibly inverted) pitch value of lines 117-119. The returned rational is
the value appended to normalized_positions on line 149, rounded to two
decimals as in the source. -/
def trackerTick (st : RangeState) (sample : Option ℚ) (now : ℤ) : RangeState × ℚ :=
  let current := match sample with
    | none => st.maxV
    | some c => c
  let st1 := debounceMin st current now
  let st2 := debounceMax st1 current now
  let diff := st2.maxV - st2.minV
  let norm := if diff = 0 then 100 else ((current - st2.minV) / diff) * 100
  (st2, round2 (clamp norm 0 100))

/-- driver.py line 28. -/
def ABS_MIN : ℤ := 0

/-- driver.py line 29: exported axis resolution. -/
def ABS_MAX : ℤ := 255

/-- driver.py line 33: base EMA smoothing factor, 0.2. -/
def ALPHA : ℚ := 1/5

/-- driver.py line 35. -/
def DEADZONE_TOP_PERCENT : ℚ := 10

/-- driver.py line 37. -/
def DEADZONE_BOTTOM_PERCENT : ℚ := 10

/-- driver.py line 42: 0.5. -/
def ADAPTIVE_SENSITIVITY : ℚ := 1/2

/-- driver.py line 44. -/
def DIFF_THRESHOLD : ℚ := 10

/-- Python int() applied to a real value: truncation toward zero. -/
def pyInt (q : ℚ) : ℤ := if q < 0 then -⌊-q⌋ else ⌊q⌋

/-- driver.py lines 85-87: map 0..100 percent to the ABS_MIN..ABS_MAX integer
range; the source applies int() to the scaled clamped value. -/
def percent_to_abs (pct : ℚ) : ℤ :=
  pyInt (max 0 (min 100 pct) / 100 * ((ABS_MAX : ℚ) - (ABS_MIN : ℚ)) + (ABS_MIN : ℚ))

/-- driver.py lines 90-104: adapted smoothing factor. -/
def compute_adaptive_alpha (base_alpha diff : ℚ) : ℚ :=
  if diff ≤ DIFF_THRESHOLD then base_alpha
  else
    let adj := (diff - DIFF_THRESHOLD) / (100 - DIFF_THRESHOLD)
    let scale := min 1 (adj * ADAPTIVE_SENSITIVITY)
    base_alpha + (1 - base_alpha) * scale

/-- driver.py lines 186-192: bottom deadzone then top deadzone. -/
def applyDeadzones (dz_bottom dz_top v0 : ℚ) : ℚ :=
  let v := if v0 ≤ dz_bottom then 0 else v0
  if v ≥ 100 - dz_top then 100 else v

/-- Per-axis shaping state of driver.py: the entries of the smoothed and
has_value lists (lines 157-158). -/
structure AxisState where
  smoothed : ℚ
  has_value : Bool
  deriving DecidableEq

/-- Per-axis body of the frame loop, driver.py lines 183-203: deadzones then
adaptive EMA smoothing, with the first valid sample stored unsmoothed. -/
def shapeAxis (alpha dz_bottom dz_top : ℚ) (st : AxisState) (raw : ℚ) : AxisState :=
  let v := applyDeadzones dz_bottom dz_top raw
  if st.has_value then
    let diff := |v - st.smoothed|
    let alpha_eff := compute_adaptive_alpha alpha diff
    ⟨alpha_eff * v + (1 - alpha_eff) * st.smoothed, true⟩
  else ⟨v, true⟩

/-- Whole-loop state of driver.py: the three per-axis shaping states together
with the last integer value written to the virtual device for each axis. -/
structure DriverState where
  axes : List AxisState
  device : List ℤ
  deriving DecidableEq

/-- driver.py lines 170-177: the guard applied to a decoded line. The
argument is the result of ast.literal_eval on a nonempty line viewed as a
numeric list (none for an empty line, a decode failure, or a non-sequence);
a sequence of fewer than 3 items is also discarded. -/
def parseFrame (decoded : Option (List ℚ)) : Option (List ℚ) :=
  match decoded with
  | none => none
  | some l => if l.length < 3 then none else some l

/-- One iteration of the driver while-loop, lines 169-208, restricted to the
shaping and device-writing path: on a discarded frame the values list is a
copy of the smoothed list and nothing is written (lines 179-180); on an
accepted frame the three axes are shaped and the shaped percentages are
written to the device (lines 182-208). Returns the new state and the values
list of the tick. -/
def driverTick (alpha dz_bottom dz_top : ℚ) (st : DriverState)
    (decoded : Option (List ℚ)) : DriverState × List ℚ :=
  match parseFrame decoded with
  | none => (st, st.axes.map AxisState.smoothed)
  | some l =>
    let axes2 := (List.range 3).map fun i =>
      shapeAxis alpha dz_bottom dz_top (st.axes.getD i ⟨0, false⟩) (l.getD i 0)
    let values := axes2.map AxisState.smoothed
    (⟨axes2, values.map percent_to_abs⟩, values)

/-- driver.py lines 131-136 and 157-158: initial loop state, smoothed values
zero, no axis initialized, device axes created at value 0. -/
def initDriver : DriverState :=
  ⟨[⟨0, false⟩, ⟨0, false⟩, ⟨0, false⟩], [0, 0, 0]⟩

/-- Fold of driverTick over a list of decoded frames. -/
def runDriver (alpha dz_bottom dz_top : ℚ) (st : DriverState) :
    List (Option (List ℚ)) → DriverState
  | [] => st
  | f :: fs => runDriver alpha dz_bottom dz_top (driverTick alpha dz_bottom dz_top st f).1 fs

/-- The smoothing recurrence of driver.py lines 199-201 iterated on one
initialized axis with a constant raw input. -/
def iterShape (alpha dz_bottom dz_top raw s : ℚ) : ℕ → ℚ
  | 0 => s
  | n + 1 =>
    (shapeAxis alpha dz_bottom dz_top ⟨iterShape alpha dz_bottom dz_top raw s n, true⟩ raw).smoothed

/-- The smoothed state, fed the constant input raw from the initialized
value s at the deployment configuration, never becomes exactly equal to
target on any tick. -/
def neverReachesTarget (raw s target : ℚ) : Prop :=
  ∀ n : ℕ, iterShape ALPHA DEADZONE_BOTTOM_PERCENT DEADZONE_TOP_PERCENT raw s n ≠ target

/-- Stated from the spec, section 4.3, for comparison with percent_to_abs:
out = round(outMin + (clamp(pct,0,100)/100) x (outMax - outMin)), with round
to the nearest integer (ties to even, as Python round). -/
def percent_to_abs_spec (pct : ℚ) : ℤ :=
  roundHalfEven ((ABS_MIN : ℚ) + clamp pct 0 100 / 100 * ((ABS_MAX : ℚ) - (ABS_MIN : ℚ)))

/-- Python float values: finite values (kept exact, precision is not
modelled) plus NaN and the two infinities, with IEEE comparison and
arithmetic on the special values. -/
inductive PyF where
  | nan : PyF
  | pinf : PyF
  | ninf : PyF
  | fin : ℚ → PyF
  deriving DecidableEq

/-- IEEE strict order on Python floats: every comparison with NaN is false. -/
def PyF.lt : PyF → PyF → Bool
  | .fin a, .fin b => decide (a < b)
  | .fin _, .pinf => true
  | .ninf, .fin _ => true
  | .ninf, .pinf => true
  | _, _ => false

/-- IEEE non-strict order on Python floats: every comparison with NaN is
false. -/
def PyF.le : PyF → PyF → Bool
  | .fin a, .fin b => decide (a ≤ b)
  | .fin _, .pinf => true
  | .ninf, .fin _ => true
  | .ninf, .pinf => true
  | .ninf, .ninf => true
  | .pinf, .pinf => true
  | _, _ => false

/-- IEEE negation. -/
def PyF.neg : PyF → PyF
  | .nan => .nan
  | .pinf => .ninf
  | .ninf => .pinf
  | .fin a => .fin (-a)

/-- IEEE addition: NaN absorbs, opposite infinities give NaN. -/
def PyF.add : PyF → PyF → PyF
  | .nan, _ => .nan
  | _, .nan => .nan
  | .pinf, .ninf => .nan
  | .ninf, .pinf => .nan
  | .pinf, _ => .pinf
  | _, .pinf => .pinf
  | .ninf, _ => .ninf
  | _, .ninf => .ninf
  | .fin a, .fin b => .fin (a + b)

/-- IEEE subtraction. -/
def PyF.sub (a b : PyF) : PyF := a.add b.neg

/-- IEEE multiplication: NaN absorbs, zero times an infinity gives NaN. -/
def PyF.mul : PyF → PyF → PyF
  | .nan, _ => .nan
  | _, .nan => .nan
  | .pinf, .pinf => .pinf
  | .pinf, .ninf => .ninf
  | .ninf, .pinf => .ninf
  | .ninf, .ninf => .pinf
  | .pinf, .fin b => if b = 0 then .nan else if b > 0 then .pinf else .ninf
  | .fin a, .pinf => if a = 0 then .nan else if a > 0 then .pinf else .ninf
  | .ninf, .fin b => if b = 0 then .nan else if b > 0 then .ninf else .pinf
  | .fin a, .ninf => if a = 0 then .nan else if a > 0 then .ninf else .pinf
  | .fin a, .fin b => .fin (a * b)

/-- IEEE division. A zero divisor raises ZeroDivisionError in Python; the
embedded code only ever divides by the constant 100 - DIFF_THRESHOLD = 90,
so that case is unreachable and mapped to NaN to stay total. -/
def PyF.div : PyF → PyF → PyF
  | .nan, _ => .nan
  | _, .nan => .nan
  | .pinf, .pinf => .nan
  | .pinf, .ninf => .nan
  | .ninf, .pinf => .nan
  | .ninf, .ninf => .nan
  | .pinf, .fin b => if b = 0 then .nan else if b > 0 then .pinf else .ninf
  | .ninf, .fin b => if b = 0 then .nan else if b > 0 then .ninf else .pinf
  | .fin _, .pinf => .fin 0
  | .fin _, .ninf => .fin 0
  | .fin a, .fin b => if b = 0 then .nan else .fin (a / b)

/-- IEEE absolute value. -/
def PyF.abs : PyF → PyF
  | .nan => .nan
  | .pinf => .pinf
  | .ninf => .pinf
  | .fin a => .fin |a|

/-- CPython min(a, b): b when b compares strictly below a, else a; hence the
first argument when the comparison with NaN is false. -/
def pymin (a b : PyF) : PyF := if PyF.lt b a then b else a

/-- driver.py lines 90-104 over Python float values. -/
def compute_adaptive_alphaF (base_alpha diff : PyF) : PyF :=
  if diff.le (.fin DIFF_THRESHOLD) then base_alpha
  else
    let adj := (diff.sub (.fin DIFF_THRESHOLD)).div ((PyF.fin 100).sub (.fin DIFF_THRESHOLD))
    let scale := pymin (.fin 1) (adj.mul (.fin ADAPTIVE_SENSITIVITY))
    base_alpha.add (((PyF.fin 1).sub base_alpha).mul scale)

/-- driver.py lines 186-192 over Python float values; v at or below the
bottom deadzone becomes 0.0, v at or above 100.0 - dz_top becomes 100.0,
and a comparison with NaN is false so NaN passes both tests. -/
def applyDeadzonesF (dz_bottom dz_top v0 : PyF) : PyF :=
  let v := if v0.le dz_bottom then .fin 0 else v0
  if (((PyF.fin 100).sub dz_top)).le v then .fin 100 else v

/-- Per-axis shaping state over Python float values. -/
structure AxisStateF where
  smoothed : PyF
  has_value : Bool
  deriving DecidableEq

/-- driver.py lines 183-203 over Python float values. -/
def shapeAxisF (alpha dz_bottom dz_top : PyF) (st : AxisStateF) (raw : PyF) : AxisStateF :=
  let v := applyDeadzonesF dz_bottom dz_top raw
  if st.has_value then
    let diff := (v.sub st.smoothed).abs
    let alpha_eff := compute_adaptive_alphaF alpha diff
    ⟨(alpha_eff.mul v).add (((PyF.fin 1).sub alpha_eff).mul st.smoothed), true⟩
  else ⟨v, true⟩

/-- Every per-axis smoothed value of the driver state lies in the closed
interval from 0 to 100. -/
def axesInRange (st : DriverState) : Prop :=
  ∀ ax ∈ st.axes, 0 ≤ ax.smoothed ∧ ax.smoothed ≤ 100

/-- A decoded frame whose entries, when present, all lie in the closed
interval from 0 to 100. -/
def frameInRange (f : Option (List ℚ)) : Prop :=
  ∀ l, f = some l → ∀ x ∈ l, 0 ≤ x ∧ x ≤ 100

/-!
Helper lemmas, then one theorem per claim, each preceded by a doc comment
naming the claim.
-/

theorem debounceMax_keeps_min (st : RangeState) (c : ℚ) (now : ℤ) :
    (debounceMax st c now).minV = st.minV ∧ (debounceMax st c now).minStable = st.minStable := by
  rcases st with ⟨mn, mx, ms, xs⟩
  unfold debounceMax
  cases xs <;> dsimp only <;> split_ifs <;> exact ⟨rfl, rfl⟩

theorem debounceMin_keeps_max (st : RangeState) (c : ℚ) (now : ℤ) :
    (debounceMin st c now).maxV = st.maxV ∧ (debounceMin st c now).maxStable = st.maxStable := by
  rcases st with ⟨mn, mx, ms, xs⟩
  unfold debounceMin
  cases ms <;> dsimp only <;> split_ifs <;> exact ⟨rfl, rfl⟩

theorem debounceMin_cases (st : RangeState) (c : ℚ) (now : ℤ) :
    (c < st.minV → st.minStable = none →
      debounceMin st c now = { st with minStable := some now })
    ∧ (∀ t : ℤ, c < st.minV → st.minStable = some t → ticks_diff now t ≥ DEBOUNCE_MS →
      debounceMin st c now = { st with minV := c, minStable := none })
    ∧ (st.minV ≤ c → debounceMin st c now = { st with minStable := none }) := by
  refine ⟨fun h1 h2 => ?_, fun t h1 h2 h3 => ?_, fun h1 => ?_⟩
  · unfold debounceMin
    rw [if_pos h1, h2]
  · unfold debounceMin
    rw [if_pos h1, h2]
    dsimp only
    rw [if_pos h3]
  · unfold debounceMin
    rw [if_neg (not_lt.mpr h1)]

theorem debounceMax_cases (st : RangeState) (c : ℚ) (now : ℤ) :
    (st.maxV < c → st.maxStable = none →
      debounceMax st c now = { st with maxStable := some now })
    ∧ (∀ t : ℤ, st.maxV < c → st.maxStable = some t → ticks_diff now t ≥ DEBOUNCE_MS →
      debounceMax st c now = { st with maxV := c, maxStable := none })
    ∧ (c ≤ st.maxV → debounceMax st c now = { st with maxStable := none }) := by
  refine ⟨fun h1 h2 => ?_, fun t h1 h2 h3 => ?_, fun h1 => ?_⟩
  · unfold debounceMax
    rw [if_pos h1, h2]
  · unfold debounceMax
    rw [if_pos h1, h2]
    dsimp only
    rw [if_pos h3]
  · unfold debounceMax
    rw [if_neg (not_lt.mpr h1)]

theorem trackerTick_fst (st : RangeState) (c : ℚ) (now : ℤ) :
    (trackerTick st (some c) now).1 = debounceMax (debounceMin st c now) c now := rfl

/-- Claim C4: on every Range Tracker tick with value current at time now,
a pending-min timer is started at now when current is below min and no timer
runs; min is committed to current and the timer cleared when current is
below min and the running timer has elapsed at least DEBOUNCE_MS; any
pending-min timer is cleared when current is at least min; and the
symmetric rules govern max and the pending-max timer. -/
theorem C4_debounce_rules (st : RangeState) (c : ℚ) (now : ℤ) :
    (c < st.minV → st.minStable = none →
      (trackerTick st (some c) now).1.minStable = some now
      ∧ (trackerTick st (some c) now).1.minV = st.minV)
    ∧ (∀ t : ℤ, c < st.minV → st.minStable = some t → ticks_diff now t ≥ DEBOUNCE_MS →
      (trackerTick st (some c) now).1.minV = c
      ∧ (trackerTick st (some c) now).1.minStable = none)
    ∧ (st.minV ≤ c → (trackerTick st (some c) now).1.minStable = none)
    ∧ (st.maxV < c → st.maxStable = none →
      (trackerTick st (some c) now).1.maxStable = some now
      ∧ (trackerTick st (some c) now).1.maxV = st.maxV)
    ∧ (∀ t : ℤ, st.maxV < c → st.maxStable = some t → ticks_diff now t ≥ DEBOUNCE_MS →
      (trackerTick st (some c) now).1.maxV = c
      ∧ (trackerTick st (some c) now).1.maxStable = none)
    ∧ (c ≤ st.maxV → (trackerTick st (some c) now).1.maxStable = none) := by
  have hkm := debounceMax_keeps_min (debounceMin st c now) c now
  have hmc := debounceMin_cases st c now
  have hxc := debounceMax_cases (debounceMin st c now) c now
  have hkx := debounceMin_keeps_max st c now
  refine ⟨fun h1 h2 => ?_, fun t h1 h2 h3 => ?_, fun h1 => ?_,
    fun h1 h2 => ?_, fun t h1 h2 h3 => ?_, fun h1 => ?_⟩
  · rw [trackerTick_fst, hkm.2, hkm.1, hmc.1 h1 h2]
    exact ⟨rfl, rfl⟩
  · rw [trackerTick_fst, hkm.2, hkm.1, hmc.2.1 t h1 h2 h3]
    exact ⟨rfl, rfl⟩
  · rw [trackerTick_fst, hkm.2, hmc.2.2 h1]
  · rw [trackerTick_fst, hxc.1 (hkx.1 ▸ h1) (hkx.2 ▸ h2)]
    exact ⟨rfl, hkx.1⟩
  · rw [trackerTick_fst, hxc.2.1 t (hkx.1 ▸ h1) (hkx.2 ▸ h2) h3]
    exact ⟨rfl, rfl⟩
  · rw [trackerTick_fst, hxc.2.2 (hkx.1 ▸ h1)]

theorem C4_debounce_rules_witness :
    (trackerTick ⟨5, 10, none, none⟩ (some 3) 7).1.minStable = some 7
    ∧ (trackerTick ⟨5, 10, none, none⟩ (some 3) 7).1.minV = 5 :=
  (C4_debounce_rules ⟨5, 10, none, none⟩ 3 7).1 (by norm_num) rfl

theorem debounce_preserves_le (st : RangeState) (c : ℚ) (now : ℤ)
    (h : st.minV ≤ st.maxV) :
    (debounceMax (debounceMin st c now) c now).minV
      ≤ (debounceMax (debounceMin st c now) c now).maxV := by
  rcases st with ⟨mn, mx, ms, xs⟩
  unfold debounceMin debounceMax
  cases ms <;> cases xs <;> dsimp only at h ⊢ <;> split_ifs <;> (try dsimp only) <;>
    (try split_ifs) <;> (try dsimp only) <;> linarith

/-- Claim C8: once a RangeState is initialized from the first observed
sample with min = max = that sample, min is at most max, and every Range
Tracker tick preserves that invariant. -/
theorem C8_min_le_max (st : RangeState) (sample : Option ℚ) (now : ℤ) (initial : ℚ)
    (h : st.minV ≤ st.maxV) :
    (initRange initial).minV ≤ (initRange initial).maxV
    ∧ (trackerTick st sample now).1.minV ≤ (trackerTick st sample now).1.maxV := by
  refine ⟨le_refl _, ?_⟩
  cases sample with
  | none => exact debounce_preserves_le st st.maxV now h
  | some c => exact debounce_preserves_le st c now h

theorem C8_min_le_max_witness :
    (initRange 42).minV ≤ (initRange 42).maxV
    ∧ (trackerTick ⟨0, 100, none, none⟩ (some 7) 3).1.minV
      ≤ (trackerTick ⟨0, 100, none, none⟩ (some 7) 3).1.maxV :=
  C8_min_le_max ⟨0, 100, none, none⟩ (some 7) 3 42 (by norm_num)

/-- Claim C1, counterexample: with learned range 0 to 100 the tick before a
dropout emits 50.0, the dropout tick emits 100.0 instead of holding 50.0,
and a dropout tick with a pending-min timer clears that timer, so the Range
Tracker is invoked and mutates state on a dropout tick. -/
theorem C1_counterexample :
    (trackerTick ⟨0, 100, none, none⟩ (some 50) 100).2 = 50
    ∧ (trackerTick ⟨0, 100, none, none⟩ none 200).2 = 100
    ∧ (trackerTick ⟨0, 100, some 5, none⟩ none 7).1 ≠ ⟨0, 100, some 5, none⟩ := by
  refine ⟨?_, ?_, ?_⟩
  · norm_num [trackerTick, debounceMin, debounceMax, clamp, round2, roundHalfEven,
      ticks_diff, DEBOUNCE_MS]
  · norm_num [trackerTick, debounceMin, debounceMax, clamp, round2, roundHalfEven,
      ticks_diff, DEBOUNCE_MS]
  · norm_num [trackerTick, debounceMin, debounceMax, ticks_diff, DEBOUNCE_MS]
    intro h
    exact Option.noConfusion h

/-- Claim C1 as amended: on a tick whose sensor read yields no valid sample,
the loop substitutes the stored max value for current and still invokes the
Range Tracker: given the min-max invariant, both pending timers are cleared,
min and max are unchanged, and the emitted normalized value is 100.0 rather
than the previous output being held. -/
theorem C1_amended (st : RangeState) (now : ℤ) (h : st.minV ≤ st.maxV) :
    trackerTick st none now = (⟨st.minV, st.maxV, none, none⟩, 100) := by
  rcases st with ⟨mn, mx, ms, xs⟩
  dsimp only at h
  have hnl : ¬ mx < mn := not_lt.mpr h
  have hst : debounceMax (debounceMin ⟨mn, mx, ms, xs⟩ mx now) mx now
      = ⟨mn, mx, none, none⟩ := by
    unfold debounceMin debounceMax
    rw [if_neg hnl]
    dsimp only
    rw [if_neg (lt_irrefl mx)]
  show (debounceMax (debounceMin ⟨mn, mx, ms, xs⟩ mx now) mx now,
      round2 (clamp (if (debounceMax (debounceMin ⟨mn, mx, ms, xs⟩ mx now) mx now).maxV
          - (debounceMax (debounceMin ⟨mn, mx, ms, xs⟩ mx now) mx now).minV = 0 then 100
        else ((mx - (debounceMax (debounceMin ⟨mn, mx, ms, xs⟩ mx now) mx now).minV)
          / ((debounceMax (debounceMin ⟨mn, mx, ms, xs⟩ mx now) mx now).maxV
            - (debounceMax (debounceMin ⟨mn, mx, ms, xs⟩ mx now) mx now).minV)) * 100) 0 100))
      = _
  rw [hst]
  dsimp only
  rcases eq_or_ne (mx - mn) 0 with h0 | h0
  · rw [if_pos h0]
    norm_num [clamp, round2, roundHalfEven]
  · rw [if_neg h0, div_self h0]
    norm_num [clamp, round2, roundHalfEven]

theorem C1_amended_witness :
    trackerTick ⟨0, 100, some 5, none⟩ none 7 = (⟨0, 100, none, none⟩, 100) :=
  C1_amended ⟨0, 100, some 5, none⟩ 7 (by norm_num)

/-- Claim C5, counterexample: with learned range 0 to 3 and current value 1,
the value the loop emits is 33.33 (the clamped normalized value rounded to
two decimal places on line 149), not the exact clamped normalized value
100/3 the claim states. -/
theorem C5_counterexample :
    (trackerTick ⟨0, 3, none, none⟩ (some 1) 0).2 = 3333/100
    ∧ (3333/100 : ℚ) ≠ clamp ((1 - 0) / (3 - 0) * 100) 0 100 := by
  constructor
  · norm_num [trackerTick, debounceMin, debounceMax, clamp, round2, roundHalfEven,
      ticks_diff, DEBOUNCE_MS]
  · norm_num [clamp]

/-- Claim C5 as amended: after the tick updates the state, the emitted
percentage is 100.0 when the updated max equals the updated min, and
otherwise is the clamp of ((current - min) / (max - min)) x 100 to the
interval 0 to 100, rounded to two decimal places (ties to even) as the loop
does on line 149 before appending. -/
theorem C5_amended (st : RangeState) (c : ℚ) (now : ℤ) :
    (trackerTick st (some c) now).2 =
      if (trackerTick st (some c) now).1.maxV = (trackerTick st (some c) now).1.minV
      then 100
      else round2 (clamp ((c - (trackerTick st (some c) now).1.minV)
        / ((trackerTick st (some c) now).1.maxV - (trackerTick st (some c) now).1.minV)
        * 100) 0 100) := by
  have h2 : (trackerTick st (some c) now).2 =
      round2 (clamp (if (trackerTick st (some c) now).1.maxV
          - (trackerTick st (some c) now).1.minV = 0 then 100
        else ((c - (trackerTick st (some c) now).1.minV)
          / ((trackerTick st (some c) now).1.maxV - (trackerTick st (some c) now).1.minV))
          * 100) 0 100) := rfl
  rw [h2]
  rcases eq_or_ne ((trackerTick st (some c) now).1.maxV
      - (trackerTick st (some c) now).1.minV) 0 with h0 | h0
  · rw [if_pos h0, if_pos (sub_eq_zero.mp h0)]
    norm_num [clamp, round2, roundHalfEven]
  · rw [if_neg h0, if_neg (fun he => h0 (sub_eq_zero.mpr he))]

theorem C5_amended_witness :
    (trackerTick ⟨0, 3, none, none⟩ (some 1) 0).2 =
      if (trackerTick ⟨0, 3, none, none⟩ (some 1) 0).1.maxV
        = (trackerTick ⟨0, 3, none, none⟩ (some 1) 0).1.minV
      then 100
      else round2 (clamp ((1 - (trackerTick ⟨0, 3, none, none⟩ (some 1) 0).1.minV)
        / ((trackerTick ⟨0, 3, none, none⟩ (some 1) 0).1.maxV
          - (trackerTick ⟨0, 3, none, none⟩ (some 1) 0).1.minV) * 100) 0 100) :=
  C5_amended ⟨0, 3, none, none⟩ 1 0

theorem compute_adaptive_alpha_mem (a d : ℚ) (h0 : 0 ≤ a) (h1 : a ≤ 1) :
    a ≤ compute_adaptive_alpha a d ∧ compute_adaptive_alpha a d ≤ 1 := by
  unfold compute_adaptive_alpha
  split_ifs with hd
  · exact ⟨le_refl a, h1⟩
  · rw [not_le] at hd
    rw [DIFF_THRESHOLD] at hd ⊢
    rw [ADAPTIVE_SENSITIVITY]
    dsimp only
    have hadj : (0 : ℚ) ≤ (d - 10) / (100 - 10) * (1/2) := by
      apply mul_nonneg (div_nonneg (by linarith) (by norm_num)) (by norm_num)
    have hs0 : (0 : ℚ) ≤ min 1 ((d - 10) / (100 - 10) * (1/2)) := le_min (by norm_num) hadj
    have hs1 : min 1 ((d - 10) / (100 - 10) * (1/2)) ≤ 1 := min_le_left _ _
    constructor
    · nlinarith
    · nlinarith

theorem convex_combination_mem (a v s : ℚ) (ha0 : 0 ≤ a) (ha1 : a ≤ 1)
    (hv0 : 0 ≤ v) (hv1 : v ≤ 100) (hs0 : 0 ≤ s) (hs1 : s ≤ 100) :
    0 ≤ a * v + (1 - a) * s ∧ a * v + (1 - a) * s ≤ 100 := by
  constructor <;> nlinarith

theorem applyDeadzones_mem (dzb dzt v0 : ℚ) (hb : 0 ≤ dzb) (ht : 0 ≤ dzt) :
    0 ≤ applyDeadzones dzb dzt v0 ∧ applyDeadzones dzb dzt v0 ≤ 100 := by
  unfold applyDeadzones
  dsimp only
  split_ifs with h1 h2 h3
  · exact ⟨by norm_num, le_refl _⟩
  · exact ⟨le_refl _, by norm_num⟩
  · exact ⟨by norm_num, le_refl _⟩
  · rw [not_le] at h1
    rw [ge_iff_le, not_le] at h3
    exact ⟨by linarith, by linarith⟩

theorem shapeAxis_mem (a dzb dzt : ℚ) (st : AxisState) (raw : ℚ)
    (ha0 : 0 ≤ a) (ha1 : a ≤ 1) (hb : 0 ≤ dzb) (ht : 0 ≤ dzt)
    (hs0 : 0 ≤ st.smoothed) (hs1 : st.smoothed ≤ 100) :
    0 ≤ (shapeAxis a dzb dzt st raw).smoothed
    ∧ (shapeAxis a dzb dzt st raw).smoothed ≤ 100 := by
  obtain ⟨hv0, hv1⟩ := applyDeadzones_mem dzb dzt raw hb ht
  rcases st with ⟨s, hv⟩
  dsimp only at hs0 hs1
  unfold shapeAxis
  cases hv
  · dsimp only
    exact ⟨hv0, hv1⟩
  · dsimp only
    obtain ⟨hA0, hA1⟩ := compute_adaptive_alpha_mem a
      |applyDeadzones dzb dzt raw - s| ha0 ha1
    exact convex_combination_mem _ _ _ (le_trans ha0 hA0) hA1 hv0 hv1 hs0 hs1

theorem clamp_eq_max_min (pct : ℚ) : clamp pct 0 100 = max 0 (min 100 pct) := by
  unfold clamp
  split_ifs with h1 h2
  · rw [min_eq_right (by linarith), max_eq_left (by linarith)]
  · rw [min_eq_left (by linarith), max_eq_right (by norm_num)]
  · rw [not_lt] at h1 h2
    rw [min_eq_right h2, max_eq_right h1]

/-- Claim C3, counterexample: at shaped percentage 27 the scaled value is
68.85; the code truncates with int() and writes 68, while the round of the
spec formula gives 69. -/
theorem C3_counterexample : percent_to_abs 27 = 68 ∧ percent_to_abs_spec 27 = 69 := by
  constructor
  · norm_num [percent_to_abs, pyInt, ABS_MIN, ABS_MAX]
  · norm_num [percent_to_abs_spec, roundHalfEven, clamp, ABS_MIN, ABS_MAX]

/-- Claim C3 as amended: the integer written to the output device for a
shaped percentage pct equals the floor (Python int(), truncation toward
zero, here of a nonnegative value) of outMin + (clamp(pct,0,100)/100) x
(outMax - outMin), with outMin = 0 and outMax = 255, not the round of that
value. -/
theorem C3_amended (pct : ℚ) :
    percent_to_abs pct
      = ⌊(ABS_MIN : ℚ) + clamp pct 0 100 / 100 * ((ABS_MAX : ℚ) - (ABS_MIN : ℚ))⌋ := by
  unfold percent_to_abs pyInt
  rw [clamp_eq_max_min]
  have h0 : (0 : ℚ) ≤ max 0 (min 100 pct) / 100 * ((ABS_MAX : ℚ) - (ABS_MIN : ℚ)) + (ABS_MIN : ℚ) := by
    rw [ABS_MIN, ABS_MAX]
    have := le_max_left (0 : ℚ) (min 100 pct)
    push_cast
    nlinarith
  rw [if_neg (not_lt.mpr h0)]
  congr 1
  ring

theorem C3_amended_witness :
    percent_to_abs 27
      = ⌊(ABS_MIN : ℚ) + clamp 27 0 100 / 100 * ((ABS_MAX : ℚ) - (ABS_MIN : ℚ))⌋ :=
  C3_amended 27

/-- Claim C6: after the first valid sample of an axis, the smoothing stage
multiplies the post-deadzone input v by the effective factor aEff and the
previous smoothed value by 1 - aEff, where aEff is the base factor when the
absolute difference is at most the threshold 10 and otherwise grows as
base + (1 - base) x min(1, ((diff - 10) / (100 - 10)) x 0.5); in particular
from smoothed 50.0 at the deployment configuration an input of 52.0 yields
50.4. -/
theorem C6_adaptive_smoothing :
    (∀ v s : ℚ,
      (shapeAxis ALPHA DEADZONE_BOTTOM_PERCENT DEADZONE_TOP_PERCENT ⟨s, true⟩ v).smoothed =
        (if |applyDeadzones DEADZONE_BOTTOM_PERCENT DEADZONE_TOP_PERCENT v - s| ≤ 10
          then (1/5 : ℚ)
          else 1/5 + (1 - 1/5) * min 1
            ((|applyDeadzones DEADZONE_BOTTOM_PERCENT DEADZONE_TOP_PERCENT v - s| - 10)
              / (100 - 10) * (1/2)))
          * applyDeadzones DEADZONE_BOTTOM_PERCENT DEADZONE_TOP_PERCENT v
        + (1 - (if |applyDeadzones DEADZONE_BOTTOM_PERCENT DEADZONE_TOP_PERCENT v - s| ≤ 10
          then (1/5 : ℚ)
          else 1/5 + (1 - 1/5) * min 1
            ((|applyDeadzones DEADZONE_BOTTOM_PERCENT DEADZONE_TOP_PERCENT v - s| - 10)
              / (100 - 10) * (1/2)))) * s)
    ∧ (shapeAxis ALPHA DEADZONE_BOTTOM_PERCENT DEADZONE_TOP_PERCENT ⟨50, true⟩ 52).smoothed
      = 50.4 := by
  constructor
  · intro v s
    rfl
  · show (shapeAxis ALPHA DEADZONE_BOTTOM_PERCENT DEADZONE_TOP_PERCENT ⟨50, true⟩ 52).smoothed
      = 50.4
    have hdz : applyDeadzones DEADZONE_BOTTOM_PERCENT DEADZONE_TOP_PERCENT 52 = 52 := by
      norm_num [applyDeadzones, DEADZONE_BOTTOM_PERCENT, DEADZONE_TOP_PERCENT]
    have halpha : compute_adaptive_alpha ALPHA |(52 : ℚ) - 50| = 1/5 := by
      rw [compute_adaptive_alpha, if_pos (by norm_num [DIFF_THRESHOLD]), ALPHA]
    unfold shapeAxis
    dsimp only
    rw [hdz, halpha]
    norm_num

/-- Claim C7: a tick whose serial frame is empty or fails to decode (the
none case) or decodes to fewer than 3 numeric values reuses each axis's
last shaped value as the values list, leaves every per-axis smoothed value
and initialization flag unchanged, and leaves the device values unchanged
(the state, including the device list, is returned untouched and no write
path runs). -/
theorem C7_transient_dropout (alpha dzb dzt : ℚ) (st : DriverState) (l : List ℚ) :
    driverTick alpha dzb dzt st none = (st, st.axes.map AxisState.smoothed)
    ∧ (l.length < 3 →
      driverTick alpha dzb dzt st (some l) = (st, st.axes.map AxisState.smoothed)) := by
  constructor
  · rfl
  · intro h
    unfold driverTick parseFrame
    dsimp only
    rw [if_pos h]

theorem C7_transient_dropout_witness :
    driverTick ALPHA 10 10 initDriver none = (initDriver, [0, 0, 0])
    ∧ driverTick ALPHA 10 10 initDriver (some [1, 2]) = (initDriver, [0, 0, 0]) := by
  have h := C7_transient_dropout ALPHA 10 10 initDriver [1, 2]
  exact ⟨h.1, h.2 (by norm_num)⟩

theorem iterShape_const_51 (n : ℕ) :
    iterShape ALPHA DEADZONE_BOTTOM_PERCENT DEADZONE_TOP_PERCENT 51 50 n
      = 51 - (4/5 : ℚ)^n := by
  induction n with
  | zero => norm_num [iterShape]
  | succ n ih =>
    have hbound : (4/5 : ℚ)^n ≤ 1 := pow_le_one₀ (by norm_num) (by norm_num)
    have hpos : (0 : ℚ) < (4/5)^n := by positivity
    have hdz : applyDeadzones DEADZONE_BOTTOM_PERCENT DEADZONE_TOP_PERCENT 51 = 51 := by
      norm_num [applyDeadzones, DEADZONE_BOTTOM_PERCENT, DEADZONE_TOP_PERCENT]
    have habs : |(51 : ℚ) - (51 - (4/5)^n)| = (4/5)^n := by
      rw [sub_sub_cancel]
      exact abs_of_nonneg (le_of_lt hpos)
    have halpha : compute_adaptive_alpha ALPHA ((4/5 : ℚ)^n) = 1/5 := by
      rw [compute_adaptive_alpha, if_pos (by rw [DIFF_THRESHOLD]; linarith), ALPHA]
    show (shapeAxis ALPHA DEADZONE_BOTTOM_PERCENT DEADZONE_TOP_PERCENT
      ⟨iterShape ALPHA DEADZONE_BOTTOM_PERCENT DEADZONE_TOP_PERCENT 51 50 n, true⟩ 51).smoothed
        = 51 - (4/5 : ℚ)^(n+1)
    rw [ih]
    unfold shapeAxis
    dsimp only
    rw [hdz, habs, halpha]
    rw [if_pos (rfl : true = true)]
    dsimp only
    rw [pow_succ]
    ring

/-- Claim C9, counterexample: from the initialized smoothed value 50 under
the constant input 51 at the deployment configuration, the smoothed state
equals 51 - (4/5)^n after n ticks and therefore never becomes exactly equal
to 51 on any tick: convergence is only in the limit, never exact. -/
theorem C9_counterexample : neverReachesTarget 51 50 51 := by
  intro n
  rw [iterShape_const_51 n]
  have hpos : (0 : ℚ) < (4/5)^n := by positivity
  intro h
  have : (4/5 : ℚ)^n = 0 := by linarith [sub_eq_self.mp h]
  exact absurd this (ne_of_gt hpos)

/-- Claim C9 as amended: under a constant raw input, each tick multiplies
the distance between the smoothed state and the post-deadzone target v by
1 - aEff, which is at most 1 - aBase, so after n ticks the distance is at
most (1 - aBase)^n times the initial distance: the smoothed state converges
to v in the limit (for aBase above 0), but in exact arithmetic it does not
become exactly equal to v in finitely many ticks unless it starts equal. -/
theorem C9_amended (a dzb dzt raw s : ℚ) (h0 : 0 ≤ a) (h1 : a ≤ 1) (n : ℕ) :
    |applyDeadzones dzb dzt raw - iterShape a dzb dzt raw s n|
      ≤ (1 - a)^n * |applyDeadzones dzb dzt raw - s| := by
  induction n with
  | zero => simp [iterShape]
  | succ n ih =>
    have hmem := compute_adaptive_alpha_mem a
      |applyDeadzones dzb dzt raw - iterShape a dzb dzt raw s n| h0 h1
    have hstep : iterShape a dzb dzt raw s (n+1) =
        compute_adaptive_alpha a |applyDeadzones dzb dzt raw - iterShape a dzb dzt raw s n|
          * applyDeadzones dzb dzt raw
        + (1 - compute_adaptive_alpha a
            |applyDeadzones dzb dzt raw - iterShape a dzb dzt raw s n|)
          * iterShape a dzb dzt raw s n := rfl
    rw [hstep]
    set A := compute_adaptive_alpha a
      |applyDeadzones dzb dzt raw - iterShape a dzb dzt raw s n| with hA
    set v := applyDeadzones dzb dzt raw with hv
    set sn := iterShape a dzb dzt raw s n with hsn
    have hfold : v - (A * v + (1 - A) * sn) = (1 - A) * (v - sn) := by ring
    rw [hfold, abs_mul, abs_of_nonneg (by linarith [hmem.2])]
    calc (1 - A) * |v - sn| ≤ (1 - a) * |v - sn| :=
          mul_le_mul_of_nonneg_right (by linarith [hmem.1]) (abs_nonneg _)
      _ ≤ (1 - a) * ((1 - a)^n * |v - s|) :=
          mul_le_mul_of_nonneg_left ih (by linarith)
      _ = (1 - a)^(n+1) * |v - s| := by ring

theorem C9_amended_witness :
    |applyDeadzones 10 10 51 - iterShape (1/5) 10 10 51 50 2|
      ≤ (1 - 1/5 : ℚ)^2 * |applyDeadzones 10 10 51 - 50| :=
  C9_amended (1/5) 10 10 51 50 (by norm_num) (by norm_num) 2

theorem getD_pred {α : Type} (P : α → Prop) (xs : List α) (d : α)
    (h : ∀ x ∈ xs, P x) (hd : P d) (i : ℕ) : P (xs.getD i d) := by
  induction xs generalizing i with
  | nil => simpa [List.getD] using hd
  | cons y ys ih =>
    cases i with
    | zero => simpa [List.getD] using h y (by simp)
    | succ j =>
      rw [List.getD_cons_succ]
      exact ih (fun x hx => h x (by simp [hx])) j

theorem driverTick_inRange (alpha dzb dzt : ℚ) (st : DriverState) (f : Option (List ℚ))
    (ha0 : 0 ≤ alpha) (ha1 : alpha ≤ 1) (hb : 0 ≤ dzb) (ht : 0 ≤ dzt)
    (hst : axesInRange st) (hf : frameInRange f) :
    axesInRange (driverTick alpha dzb dzt st f).1
    ∧ ∀ v ∈ (driverTick alpha dzb dzt st f).2, 0 ≤ v ∧ v ≤ 100 := by
  unfold driverTick
  cases hpf : parseFrame f with
  | none =>
    dsimp only
    refine ⟨hst, ?_⟩
    intro v hv
    rw [List.mem_map] at hv
    obtain ⟨ax, hax, rfl⟩ := hv
    exact hst ax hax
  | some l =>
    have hfl : f = some l := by
      cases f with
      | none => simp [parseFrame] at hpf
      | some l0 =>
        simp only [parseFrame] at hpf
        by_cases hlen : l0.length < 3
        · rw [if_pos hlen] at hpf
          cases hpf
        · rw [if_neg hlen] at hpf
          cases hpf
          rfl
    have hl : ∀ x ∈ l, 0 ≤ x ∧ x ≤ 100 := hf l hfl
    dsimp only
    have haxes : ∀ ax ∈ (List.range 3).map (fun i =>
        shapeAxis alpha dzb dzt (st.axes.getD i ⟨0, false⟩) (l.getD i 0)),
        0 ≤ ax.smoothed ∧ ax.smoothed ≤ 100 := by
      intro ax hax
      rw [List.mem_map] at hax
      obtain ⟨i, hi, rfl⟩ := hax
      have hst2 : ∀ ax ∈ st.axes, 0 ≤ ax.smoothed ∧ ax.smoothed ≤ 100 := hst
      have hsti : 0 ≤ (st.axes.getD i ⟨0, false⟩).smoothed
          ∧ (st.axes.getD i ⟨0, false⟩).smoothed ≤ 100 :=
        getD_pred (fun ax : AxisState => 0 ≤ ax.smoothed ∧ ax.smoothed ≤ 100)
          st.axes ⟨0, false⟩ hst2 ⟨le_refl 0, by norm_num⟩ i
      exact shapeAxis_mem alpha dzb dzt _ (l.getD i 0) ha0 ha1 hb ht hsti.1 hsti.2
    refine ⟨haxes, ?_⟩
    intro v hv
    rw [List.mem_map] at hv
    obtain ⟨ax, hax, rfl⟩ := hv
    exact haxes ax hax

theorem runDriver_inRange (alpha dzb dzt : ℚ) (frames : List (Option (List ℚ)))
    (st : DriverState)
    (ha0 : 0 ≤ alpha) (ha1 : alpha ≤ 1) (hb : 0 ≤ dzb) (ht : 0 ≤ dzt)
    (hst : axesInRange st) (hf : ∀ f ∈ frames, frameInRange f) :
    axesInRange (runDriver alpha dzb dzt st frames) := by
  induction frames generalizing st with
  | nil => exact hst
  | cons f fs ih =>
    rw [runDriver]
    exact ih _ ((driverTick_inRange alpha dzb dzt st f ha0 ha1 hb ht hst
      (hf f (by simp))).1) (fun g hg => hf g (by simp [hg]))

/-- Claim C10: with any base alpha in 0..1 and nonnegative deadzones, the
deadzones map the interval 0..100 into itself, compute_adaptive_alpha always
returns a value between the base alpha and 1, every tick of the loop keeps
each smoothed state in 0..100 and emits only values in 0..100 (each
smoothing step being a convex combination of two in-range values, with no
explicit clamp in the shaping code), and any run from the initial state on
frames whose parsed values lie in 0..100 keeps every smoothed state in
0..100. -/
theorem C10_range_invariant (alpha dzb dzt : ℚ)
    (ha0 : 0 ≤ alpha) (ha1 : alpha ≤ 1) (hb : 0 ≤ dzb) (ht : 0 ≤ dzt) :
    (∀ raw : ℚ, 0 ≤ raw → raw ≤ 100 →
      0 ≤ applyDeadzones dzb dzt raw ∧ applyDeadzones dzb dzt raw ≤ 100)
    ∧ (∀ d : ℚ, alpha ≤ compute_adaptive_alpha alpha d ∧ compute_adaptive_alpha alpha d ≤ 1)
    ∧ (∀ st f, axesInRange st → frameInRange f →
      axesInRange (driverTick alpha dzb dzt st f).1
      ∧ ∀ v ∈ (driverTick alpha dzb dzt st f).2, 0 ≤ v ∧ v ≤ 100)
    ∧ (∀ frames, (∀ f ∈ frames, frameInRange f) →
      axesInRange (runDriver alpha dzb dzt initDriver frames)) := by
  refine ⟨?_, ?_, ?_, ?_⟩
  · intro raw h1 h2
    exact applyDeadzones_mem dzb dzt raw hb ht
  · intro d
    exact compute_adaptive_alpha_mem alpha d ha0 ha1
  · intro st f hst hf
    exact driverTick_inRange alpha dzb dzt st f ha0 ha1 hb ht hst hf
  · intro frames hf
    refine runDriver_inRange alpha dzb dzt frames initDriver ha0 ha1 hb ht ?_ hf
    intro ax hax
    simp only [initDriver, List.mem_cons, List.not_mem_nil, or_false] at hax
    rcases hax with rfl | rfl | rfl <;> exact ⟨le_refl _, by norm_num⟩

theorem C10_range_invariant_witness :
    axesInRange (runDriver (1/5) 10 10 initDriver [some [20, 30, 40]]) := by
  have h := (C10_range_invariant (1/5) 10 10
    (by norm_num) (by norm_num) (by norm_num) (by norm_num)).2.2.2
  apply h
  intro f hf
  rw [List.mem_singleton] at hf
  rw [hf]
  intro l hl x hx
  injection hl with h
  subst h
  simp only [List.mem_cons, List.not_mem_nil, or_false] at hx
  rcases hx with rfl | rfl | rfl <;> norm_num

theorem PyF_le_fin (a b : ℚ) : (PyF.fin a).le (PyF.fin b) = decide (a ≤ b) := rfl

theorem PyF_add_fin (a b : ℚ) : (PyF.fin a).add (PyF.fin b) = .fin (a + b) := rfl

theorem PyF_sub_fin (a b : ℚ) : (PyF.fin a).sub (PyF.fin b) = .fin (a - b) := by
  show PyF.fin (a + -b) = PyF.fin (a - b)
  rw [← sub_eq_add_neg]

theorem PyF_mul_fin (a b : ℚ) : (PyF.fin a).mul (PyF.fin b) = .fin (a * b) := rfl

theorem PyF_div_fin (a b : ℚ) :
    (PyF.fin a).div (PyF.fin b) = if b = 0 then .nan else .fin (a / b) := rfl

theorem PyF_abs_fin (a : ℚ) : (PyF.fin a).abs = .fin |a| := rfl

theorem PyF_le_fin_pinf (a : ℚ) : (PyF.fin a).le PyF.pinf = true := rfl

theorem pymin_fin (a b : ℚ) : pymin (.fin a) (.fin b) = .fin (min a b) := by
  unfold pymin
  rcases le_or_lt a b with h | h
  · rw [if_neg (by simp [PyF.lt, not_lt.mpr h]), min_eq_left h]
  · rw [if_pos (by simp [PyF.lt, h]), min_eq_right (le_of_lt h)]

theorem compute_adaptive_alphaF_fin (a d : ℚ) :
    compute_adaptive_alphaF (.fin a) (.fin d) = .fin (compute_adaptive_alpha a d) := by
  unfold compute_adaptive_alphaF compute_adaptive_alpha
  by_cases hd : d ≤ DIFF_THRESHOLD
  · rw [if_pos (by simp [PyF_le_fin, hd]), if_pos hd]
  · rw [if_neg (by simp [PyF_le_fin, hd]), if_neg hd]
    dsimp only
    simp only [PyF_sub_fin, PyF_div_fin]
    rw [if_neg (show ¬(100 - DIFF_THRESHOLD = (0:ℚ)) by norm_num [DIFF_THRESHOLD])]
    simp only [PyF_mul_fin, pymin_fin, PyF_add_fin]

theorem applyDeadzonesF_fin (b t q : ℚ) :
    applyDeadzonesF (.fin b) (.fin t) (.fin q) = .fin (applyDeadzones b t q) := by
  unfold applyDeadzonesF applyDeadzones
  dsimp only
  simp only [PyF_le_fin, PyF_sub_fin, decide_eq_true_eq, ge_iff_le]
  by_cases h1 : q ≤ b
  · rw [if_pos h1, if_pos h1]
    simp only [PyF_le_fin, decide_eq_true_eq]
    by_cases h2 : (100 - t : ℚ) ≤ 0
    · rw [if_pos h2, if_pos h2]
    · rw [if_neg h2, if_neg h2]
  · rw [if_neg h1, if_neg h1]
    simp only [PyF_le_fin, decide_eq_true_eq]
    by_cases h2 : (100 - t : ℚ) ≤ q
    · rw [if_pos h2, if_pos h2]
    · rw [if_neg h2, if_neg h2]

theorem shapeAxisF_deadzoned (alpha dzb dzt : PyF) (st : AxisStateF) (v w : PyF)
    (hw : applyDeadzonesF dzb dzt v = w) :
    shapeAxisF alpha dzb dzt st v =
      if st.has_value then
        ⟨((compute_adaptive_alphaF alpha ((w.sub st.smoothed).abs)).mul w).add
          (((PyF.fin 1).sub
            (compute_adaptive_alphaF alpha ((w.sub st.smoothed).abs))).mul st.smoothed),
          true⟩
      else ⟨w, true⟩ := by
  unfold shapeAxisF
  rw [hw]

/-- Claim C2, counterexample: a parsed NaN passes both deadzone tests
(every IEEE comparison with NaN is false), drives the adapted alpha to 1.0
through min, and the smoothing update then stores NaN in the smoothed
state: there is no clamp at the stage boundaries that stops it. -/
theorem C2_counterexample :
    (shapeAxisF (.fin ALPHA) (.fin DEADZONE_BOTTOM_PERCENT) (.fin DEADZONE_TOP_PERCENT)
      ⟨.fin 50, true⟩ PyF.nan).smoothed = PyF.nan := rfl

/-- Claim C2 as amended: there is no explicit clamp at the stage boundaries,
yet for every non-NaN parsed value (finite of any magnitude, or infinite)
the two deadzones leave a finite value between 0 and 100, and the smoothing
step, a convex combination, keeps the smoothed state finite and in 0..100;
a NaN parsed value, however, passes both deadzones and makes the smoothed
state NaN (see the counterexample). -/
theorem C2_amended (a t s : ℚ) (hv : Bool) (v : PyF)
    (ha0 : 0 ≤ a) (ha1 : a ≤ 1) (ht : 0 ≤ t) (hnan : v ≠ PyF.nan)
    (hs0 : 0 ≤ s) (hs1 : s ≤ 100) :
    ∃ s2 : ℚ, shapeAxisF (.fin a) (.fin DEADZONE_BOTTOM_PERCENT) (.fin t)
        ⟨.fin s, hv⟩ v = ⟨.fin s2, true⟩
      ∧ 0 ≤ s2 ∧ s2 ≤ 100 := by
  have hbz : (0 : ℚ) ≤ DEADZONE_BOTTOM_PERCENT := by norm_num [DEADZONE_BOTTOM_PERCENT]
  have hdz : ∃ w : ℚ, applyDeadzonesF (.fin DEADZONE_BOTTOM_PERCENT) (.fin t) v = .fin w
      ∧ 0 ≤ w ∧ w ≤ 100 := by
    cases v with
    | nan => exact absurd rfl hnan
    | pinf =>
      refine ⟨100, ?_, by norm_num, le_refl _⟩
      unfold applyDeadzonesF
      dsimp only
      rw [if_neg (show ¬(PyF.le .pinf (.fin DEADZONE_BOTTOM_PERCENT) = true) by decide),
        PyF_sub_fin]
      rw [if_pos (PyF_le_fin_pinf (100 - t))]
    | ninf =>
      unfold applyDeadzonesF
      dsimp only
      rw [if_pos (show PyF.le .ninf (.fin DEADZONE_BOTTOM_PERCENT) = true by decide),
        PyF_sub_fin]
      simp only [PyF_le_fin, decide_eq_true_eq]
      by_cases h2 : (100 - t : ℚ) ≤ 0
      · exact ⟨100, by rw [if_pos h2], by norm_num, le_refl _⟩
      · exact ⟨0, by rw [if_neg h2], le_refl _, by norm_num⟩
    | fin q =>
      exact ⟨applyDeadzones DEADZONE_BOTTOM_PERCENT t q, applyDeadzonesF_fin _ t q,
        (applyDeadzones_mem _ t q hbz ht).1, (applyDeadzones_mem _ t q hbz ht).2⟩
  obtain ⟨w, hw, hw0, hw1⟩ := hdz
  rw [shapeAxisF_deadzoned (.fin a) (.fin DEADZONE_BOTTOM_PERCENT) (.fin t)
    ⟨.fin s, hv⟩ v (.fin w) hw]
  cases hv
  · dsimp only
    rw [if_neg (by simp)]
    exact ⟨w, rfl, hw0, hw1⟩
  · dsimp only
    rw [if_pos (rfl : true = true)]
    rw [PyF_sub_fin, PyF_abs_fin, compute_adaptive_alphaF_fin, PyF_mul_fin,
      PyF_sub_fin, PyF_mul_fin, PyF_add_fin]
    have hA := compute_adaptive_alpha_mem a |w - s| ha0 ha1
    have hc := convex_combination_mem (compute_adaptive_alpha a |w - s|) w s
      (le_trans ha0 hA.1) hA.2 hw0 hw1 hs0 hs1
    exact ⟨_, rfl, hc.1, hc.2⟩

theorem C2_amended_witness :
    ∃ s2 : ℚ, shapeAxisF (.fin (1/5)) (.fin DEADZONE_BOTTOM_PERCENT) (.fin 10)
        ⟨.fin 50, true⟩ (.fin 52) = ⟨.fin s2, true⟩
      ∧ 0 ≤ s2 ∧ s2 ≤ 100 :=
  C2_amended (1/5) 10 50 true (.fin 52) (by norm_num) (by norm_num) (by norm_num)
    (by simp) (by norm_num) (by norm_num)
